import Mathlib

/-!
Verification of the `logger` file-rotation engine.

Shallow embedding of the rotation-relevant parts of `filelogger.go` and
`logtimer.go` (package `logger`).  Conventions used throughout:

* Go `int64` values are modelled as `Int`.  Go's `/` on integers truncates
  toward zero, which is `Int.tdiv`; `math.Mod` keeps the sign of the
  dividend, which is `Int.tmod`.  All arguments at the call sites modelled
  here are far below `2^53`, so the source's round-trip through `float64`
  in `math.Mod` is exact and is modelled as `Int.tmod` directly.
* Time instants are modelled as whole seconds (`Nat`) in a fixed location;
  durations are seconds.  `time.Time.Round(time.Minute)` rounds to the
  nearest minute (half away from zero), `time.Date(y,m,d,h,min,0,0,loc)`
  truncates to the minute, and midnight of the current day truncates to
  the day; all instants handled here are non-negative.
* The filesystem is passed in explicitly: `os.Stat` of the current file is
  an `Option Int` (`none` = stat error, `some sz` = size), and the result
  of `filepath.Glob` is an `Option (List FileEntry)` (`none` = the call
  returned an error, `some []` = a nil match list) where each entry
  carries the file name and its modification time.  Go's `Glob` returns
  the names in sorted order; the embedded list is taken in that order.
* A Go `panic` (here always produced via `log.Panicf`) is modelled as
  `Except.error ()`; a deferred `recover()` maps it back to the zero value
  of the enclosing function's result, as in `LogRotateCheck`.
-/

namespace Logger

/-! ## Size constants (filelogger.go, `const` block) -/

/-- Source constant `Kbyte int64 = 1024`. -/
def Kbyte : Int := 1024

/-- Source constant `Mbyte int64 = 1000 * Kbyte`. -/
def Mbyte : Int := 1000 * Kbyte

/-- Source constant `LogMinFileSize = Mbyte`. -/
def LogMinFileSize : Int := Mbyte

/-- Source constant `LogMaxFileSize = (500 * Mbyte)`. -/
def LogMaxFileSize : Int := 500 * Mbyte

/-- Source constant `logHighWaterMark = (2*Kbyte)`. -/
def logHighWaterMark : Int := 2 * Kbyte

/-- Source constant `logMaxVolNumber int = 9999`. -/
def logMaxVolNumber : Int := 9999

/-- Helper `max(x, y int64) int64` at the bottom of filelogger.go:
returns `y` when `y > x`, else `x`. -/
def goMax (x y : Int) : Int := if y > x then y else x

/-- The size-limit computation performed by `SizeLimitedFile(name, size)`
(filelogger.go):

```
size = max(size, LogMaxFileSize)
if rem := math.Mod(float64(size), float64(LogMinFileSize)); rem > 0.0 {
    size = (size / LogMinFileSize) * LogMinFileSize + LogMinFileSize
} else {
    size = LogMinFileSize
}
```

The result is stored as `lf.fileSizeLimit`. -/
def sizeLimitCalc (size : Int) : Int :=
  let s := goMax size LogMaxFileSize
  if s.tmod LogMinFileSize > 0 then
    s.tdiv LogMinFileSize * LogMinFileSize + LogMinFileSize
  else
    LogMinFileSize

/-! ## The write path (`LogFile.Write`, `LogFile.writeEntry`)

Byte sequences are `List Nat` (each element a byte value).  `10` is `'\n'`,
`59` is `';'`, `32` is `' '`. -/

/-- The call `bytes.Replace(p, []byte("\n"), []byte("; "), -1)` from `Write`.  The
pattern is the single byte `'\n'`, so the general left-to-right
non-overlapping replacement of `bytes.Replace` is exactly this per-byte
substitution: every `10` becomes `59, 32`, every other byte is kept. -/
def bytesReplaceNl : List Nat → List Nat
  | [] => []
  | b :: bs => (if b = 10 then [59, 32] else [b]) ++ bytesReplaceNl bs

/-- The normalization in `LogFile.Write`:
`p = append(bytes.Replace(p, []byte("\n"), []byte("; ")), -1), '\n')`. -/
def normalizeEntry (p : List Nat) : List Nat := bytesReplaceNl p ++ [10]

/-- Effect of `LogFile.Write` on an open file whose current contents are `file`, in the
non-panicking case: the normalized record is handed to `writeEntry`, which
appends it via the underlying `os.File.Write`; on success that call returns
the number of bytes written, i.e. the length of the normalized record.
Result: (new file contents, returned count `n`). -/
def logWrite (file p : List Nat) : List Nat × Nat :=
  let q := normalizeEntry p
  (file ++ q, q.length)

/-! ## Volume numbers (`calcNextVolumeNo`, `getStaticFilename`)

A directory listing entry: a file name (as its character list) and its
modification time in seconds.  `filepath.Glob`'s result is passed in as
`Option (List FileEntry)`: `none` models `err != nil`, `some []` models a
nil match slice, `some l` holds the matches of `<prefix>.*.log` in Glob's
sorted order, every one stat-able. -/

structure FileEntry where
  name : List Char
  mtime : Nat
deriving DecidableEq

/-- The leading run of decimal digits of a character list, together with
what follows it (the greedy `[0-9]+` of the volume-number pattern). -/
def digitSpan : List Char → List Char × List Char
  | [] => ([], [])
  | c :: cs =>
    if c.isDigit then
      let p := digitSpan cs
      (c :: p.1, p.2)
    else ([], c :: cs)

/-- The result of `regexp.MustCompile("\\.([0-9]+)\\.log").FindAllStringSubmatch(s, -1)`,
first match, capture group 1 (`list[0][1]` in the source): the leftmost
position holding a literal `'.'` followed by a nonempty digit run followed
immediately by `".log"`; the digit run is the captured token.  (RE2 scans
left to right; the greedy `[0-9]+` cannot shrink usefully because a shorter
run is still followed by a digit, not by `'.'`.)  `none` models an empty
match list, on which the source's `list[0][1]` would panic. -/
def findVolToken : List Char → Option (List Char)
  | [] => none
  | c :: cs =>
    if c = '.' then
      let p := digitSpan cs
      if p.1 ≠ [] ∧ List.isPrefixOf ['.', 'l', 'o', 'g'] p.2 then some p.1
      else findVolToken cs
    else findVolToken cs

/-- Numeric value of a decimal digit string (most significant first). -/
def digitsVal (ds : List Char) : Nat :=
  ds.foldl (fun a c => a * 10 + (c.toNat - 48)) 0

/-- The call `strconv.ParseInt(s, 10, 16)` on a nonempty decimal-digit string, error
discarded (`n, _ :=` in the source): a value above `MaxInt16` comes back
clamped to `32767` together with `ErrRange`, which the source ignores. -/
def parseInt16 (ds : List Char) : Int := Int.ofNat (min (digitsVal ds) 32767)

/-- The selection loop of `calcNextVolumeNo`:

```
oldestFi, _ := os.Stat(matches[0]); oldestFile := matches[0]
for _, f := range matches {
    if fi, _ = os.Stat(f); fi.ModTime().After(oldestFi.ModTime()) { ... }
}
```

starting from `best`, replace it by `f` whenever `f`'s modification time is
strictly after the current best's.  Despite the variable names, the entry
kept at the end has the latest (newest) modification time. -/
def pickLatest (best : FileEntry) : List FileEntry → FileEntry
  | [] => best
  | f :: fs => if best.mtime < f.mtime then pickLatest f fs else pickLatest best fs

/-- The function `calcNextVolumeNo(prefix)` given the result of
`filepath.Glob(genFilename(prefix, "*"))`.  `none`/nil listing returns
volume 1; otherwise the loop above runs over all matches (including
`matches[0]` again), the token of the chosen file is parsed, and
`volNo = int16(math.Mod(float64(n), 9999)) + 1`, with the (unreachable)
`volNo == 0` guard mirrored.  `math.Mod` is exact here since `n ≤ 32767`.
The result is `none` exactly when the token pattern matches nowhere in the
chosen name and the source would panic on `list[0][1]`. -/
def calcNextVolumeNo (globResult : Option (List FileEntry)) : Option Int :=
  match globResult with
  | none => some 1
  | some [] => some 1
  | some (m0 :: ms) =>
    let w := pickLatest m0 (m0 :: ms)
    match findVolToken w.name with
    | none => none
    | some ds =>
      let n := parseInt16 ds
      let volNo := n.tmod 9999 + 1
      some (if volNo = 0 then 1 else volNo)

/-- The volume-number choice of `getStaticFilename` (the part of the
filename generator for `PolicyNone`/`PolicyFileSize` that picks
`lf.volNo`): a `LogFile` whose stored `volNo` is still `0` (every freshly
constructed one) gets volume 1; a later call on the same `LogFile` scans
the existing files. -/
def getStaticVolNo (volNo : Int) (globResult : Option (List FileEntry)) : Option Int :=
  if volNo = 0 then some 1 else calcNextVolumeNo globResult

/-- Follows the spec's words, for comparison with `pickLatest`: "select the
file with the oldest modification time among matches". -/
def pickOldestSpec (best : FileEntry) : List FileEntry → FileEntry
  | [] => best
  | f :: fs => if f.mtime < best.mtime then pickOldestSpec f fs else pickOldestSpec best fs

/-- Follows the spec's words, for comparison with `calcNextVolumeNo`: the
same token arithmetic applied to the file with the *oldest* modification
time among the matches. -/
def specNextVolumeNo (globResult : Option (List FileEntry)) : Option Int :=
  match globResult with
  | none => some 1
  | some [] => some 1
  | some (m0 :: ms) =>
    let w := pickOldestSpec m0 (m0 :: ms)
    match findVolToken w.name with
    | none => none
    | some ds =>
      let n := parseInt16 ds
      let volNo := n.tmod 9999 + 1
      some (if volNo = 0 then 1 else volNo)

/-! ## The scheduler (`logtimer.go`)

Instants and durations are whole seconds (`Nat`), one fixed location. -/

/-- The value `time.Date(y, m, d, h, min, 0, 0, loc)` for the current instant: zero
the seconds, i.e. truncate to the minute. -/
def minuteTrunc (t : Nat) : Nat := t / 60 * 60

/-- The value `time.Date(y, m, d, 0, 0, 0, 0, loc)` for the current instant: truncate
to the day (midnight).  The source's extra `.Round(time.Minute)` on this
value is the identity, midnight being a whole minute. -/
def dayTrunc (t : Nat) : Nat := t / 86400 * 86400

/-- The value `t.Round(time.Minute)`: round to the nearest minute, half away from
zero (instants here are non-negative). -/
def roundMinute (t : Nat) : Nat := (t + 30) / 60 * 60

/-- The fields of `LogTimer` the claims speak about: `base` (anchor),
`next` (expected trigger instant, "should be base + duration"), `d`
(registered duration/cycle). -/
structure TimerState where
  base : Nat
  next : Nat
  d : Nat
deriving DecidableEq

/-- The constructor `NewTimer(dur, l, f)`: `base` is "now" with seconds zeroed,
`next = base + dur`, and the one-shot alarm is armed for `dur`.
`NewLocalTimer` (used by `TimedFile`) is `NewTimer` with the local
location. -/
def NewTimer (now dur : Nat) : TimerState :=
  { base := minuteTrunc now, next := minuteTrunc now + dur, d := dur }

/-- The constructor `NewDailyTimer(loc, f)` (used by `DailyFile`): `d = 24h`, `base` is
midnight of the current day (rounded to the minute — the identity), and
`next = base + d`, i.e. the coming midnight. -/
def NewDailyTimer (now : Nat) : TimerState :=
  { base := dayTrunc now, next := dayTrunc now + 86400, d := 86400 }

/-- Accessor `TriggerTime()`: returns `next`. -/
def TriggerTime (t : TimerState) : Nat := t.next

/-- Method `Reset()`: stops and re-arms the underlying `time.Timer` with the same
duration `d`; none of `base`, `next`, `d` is modified. -/
def Reset (t : TimerState) : TimerState := t

/-- Callback `doTimerFunc()` once the alarm fires: runs the registered callback
(for a rotating file the callback performs `LogRotate`, whose `timedRotate`
calls `Reset` — the identity on these fields), then executes
`lt.base = lt.next`.  No assignment to `lt.next` exists outside the
constructors. -/
def doTimerFunc (t : TimerState) : TimerState := { t with base := t.next }

/-! ## Rotation checks (`LogFile` policy dispatch)

Each constructor stores the check matching its policy
(`File` → constant false, `DailyFile`/`TimedFile` → `timedRotateCheck`,
`SizeLimitedFile` → `sizeRotateCheck`), so the stored closure is
recovered from the policy tag.  `os.Stat(lf.currentFile)` is passed in as
`Option Int` (`none` = stat error, `some sz` = the file's size).  A Go
panic is `Except.error ()`. -/

inductive PolicyType where
  | PolicyNone
  | PolicyDaily
  | PolicyTimeLimit
  | PolicyFileSize
deriving DecidableEq

/-- The rotation-relevant fields of `LogFile`. -/
structure LogFileModel where
  policy : PolicyType
  fileSizeLimit : Int
  ltimer : Option TimerState
deriving DecidableEq

/-- Check `timedRotateCheck`: false when no timer is held, else
`time.Now().Round(time.Minute).After(lf.ltimer.TriggerTime())` — "now"
rounded to the minute strictly after the trigger instant. -/
def timedRotateCheck (lt : Option TimerState) (now : Nat) : Bool :=
  match lt with
  | none => false
  | some t => decide (TriggerTime t < roundMinute now)

/-- Check `sizeRotateCheck`: false for a non-`PolicyFileSize` file (the safety
check); on a stat error the source runs `log.Panicf`, which panics — the
`return true` after it is unreachable; otherwise
`fi.Size() + logHighWaterMark > lf.fileSizeLimit`. -/
def sizeRotateCheck (lf : LogFileModel) (statSize : Option Int) : Except Unit Bool :=
  if lf.policy ≠ PolicyType.PolicyFileSize then Except.ok false
  else
    match statSize with
    | none => Except.error ()
    | some sz => Except.ok (decide (sz + logHighWaterMark > lf.fileSizeLimit))

/-- The `rotateCheck` closure each constructor stores, dispatched on the
policy tag it was stored with. -/
def rotateCheckOf (lf : LogFileModel) (now : Nat) (statSize : Option Int) :
    Except Unit Bool :=
  match lf.policy with
  | PolicyType.PolicyNone => Except.ok false
  | PolicyType.PolicyDaily => Except.ok (timedRotateCheck lf.ltimer now)
  | PolicyType.PolicyTimeLimit => Except.ok (timedRotateCheck lf.ltimer now)
  | PolicyType.PolicyFileSize => sizeRotateCheck lf statSize

/-- Method `LogFile.LogRotateCheck`: calls the stored check under a deferred
`recover()`; a panic inside the check is swallowed and the function
returns its zero value, `false`. -/
def LogRotateCheck (lf : LogFileModel) (now : Nat) (statSize : Option Int) : Bool :=
  match rotateCheckOf lf now statSize with
  | Except.ok b => b
  | Except.error _ => false

/-! ## Supporting lemmas -/

/-- The per-byte replacement introduces no newline byte: `'; '` is
newline-free and every other byte is kept only when it is not `10`. -/
theorem bytesReplaceNl_count_nl (p : List Nat) : (bytesReplaceNl p).count 10 = 0 := by
  induction p with
  | nil => rfl
  | cons b bs ih =>
    by_cases hb : b = 10 <;>
      simp [bytesReplaceNl, hb, List.count_append, List.count_cons, ih]

/-- Length of the replaced payload: one extra byte per newline replaced. -/
theorem bytesReplaceNl_length (p : List Nat) :
    (bytesReplaceNl p).length = p.length + p.count 10 := by
  induction p with
  | nil => rfl
  | cons b bs ih =>
    by_cases hb : b = 10 <;>
      simp [bytesReplaceNl, hb, List.count_cons, ih] <;> omega

/-- The selection loop's result bounds every candidate's modification time
from above (it keeps a latest-modified entry). -/
theorem pickLatest_max (best : FileEntry) (l : List FileEntry) :
    best.mtime ≤ (pickLatest best l).mtime ∧
      ∀ f ∈ l, f.mtime ≤ (pickLatest best l).mtime := by
  induction l generalizing best with
  | nil => simp [pickLatest]
  | cons g gs ih =>
    by_cases h : best.mtime < g.mtime
    · have := ih g
      constructor
      · simp [pickLatest, h]; omega
      · intro f hf
        rcases List.mem_cons.mp hf with hf | hf
        · subst hf; simp [pickLatest, h]; omega
        · simp [pickLatest, h]; exact (ih g).2 f hf
    · constructor
      · simp [pickLatest, h]; exact (ih best).1
      · intro f hf
        rcases List.mem_cons.mp hf with hf | hf
        · subst hf; simp [pickLatest, h]
          have := (ih best).1; omega
        · simp [pickLatest, h]; exact (ih best).2 f hf

/-- The selection loop returns its starting candidate or a list element. -/
theorem pickLatest_mem (best : FileEntry) (l : List FileEntry) :
    pickLatest best l = best ∨ pickLatest best l ∈ l := by
  induction l generalizing best with
  | nil => left; rfl
  | cons g gs ih =>
    by_cases h : best.mtime < g.mtime
    · simp only [pickLatest, if_pos h]
      rcases ih g with h2 | h2
      · right; rw [h2]; exact List.mem_cons_self g gs
      · right; exact List.mem_cons_of_mem g h2
    · simp only [pickLatest, if_neg h]
      rcases ih best with h2 | h2
      · left; exact h2
      · right; exact List.mem_cons_of_mem g h2

/-! ## Claim theorems -/

/-- C1 (amended): the effective `sizeLimitBytes` computed by
`SizeLimitedFile` is the minimum unit `LogMinFileSize` whenever the request
is at most the ceiling `LogMaxFileSize` or is an exact multiple of the
unit; for a request strictly above the ceiling that is not an exact
multiple, it is the request rounded up to the next multiple of the unit —
which is strictly above the ceiling.  (The claim's round-up for
sub-ceiling non-multiples, its ceiling bound, and its above-ceiling
degradation to the minimum all fail on the code; see the
counterexample.) -/
theorem sizeLimitedFile_effective_limit (size : Int) :
    (size ≤ LogMaxFileSize ∨ size % LogMinFileSize = 0 →
      sizeLimitCalc size = LogMinFileSize) ∧
    (LogMaxFileSize < size ∧ size % LogMinFileSize ≠ 0 →
      sizeLimitCalc size = size / LogMinFileSize * LogMinFileSize + LogMinFileSize
        ∧ LogMaxFileSize < sizeLimitCalc size) := by
  have hgoMax1 : ∀ x : Int, x ≤ LogMaxFileSize → goMax x LogMaxFileSize = LogMaxFileSize := by
    intro x hx; unfold goMax; split <;> omega
  have hgoMax2 : ∀ x : Int, LogMaxFileSize < x → goMax x LogMaxFileSize = x := by
    intro x hx; unfold goMax; split <;> omega
  constructor
  · intro h
    rcases le_or_lt size LogMaxFileSize with hle | hgt
    · show (if (goMax size LogMaxFileSize).tmod LogMinFileSize > 0 then _ else _) = _
      rw [hgoMax1 size hle]
      rw [if_neg (by decide)]
    · have hmul : size % LogMinFileSize = 0 := by
        rcases h with h | h
        · omega
        · exact h
      have h0 : (0:Int) ≤ size := by
        have hp : (0:Int) < LogMaxFileSize := by decide
        omega
      have ht : size.tmod LogMinFileSize = size % LogMinFileSize :=
        Int.tmod_eq_emod h0 (by decide)
      show (if (goMax size LogMaxFileSize).tmod LogMinFileSize > 0 then _ else _) = _
      rw [hgoMax2 size hgt]
      rw [if_neg (by rw [ht, hmul]; decide)]
  · rintro ⟨hgt, hne⟩
    have h0 : (0:Int) ≤ size := by
      have hp : (0:Int) < LogMaxFileSize := by decide
      omega
    have ht : size.tmod LogMinFileSize = size % LogMinFileSize :=
      Int.tmod_eq_emod h0 (by decide)
    have htd : size.tdiv LogMinFileSize = size / LogMinFileSize :=
      Int.tdiv_eq_ediv h0 (by decide)
    have hcond : size.tmod LogMinFileSize > 0 := by
      rw [ht]
      have hnn := Int.emod_nonneg size (show (LogMinFileSize:Int) ≠ 0 by decide)
      omega
    show (if (goMax size LogMaxFileSize).tmod LogMinFileSize > 0 then _ else _) = _ ∧ _
    rw [hgoMax2 size hgt, if_pos hcond, htd]
    refine ⟨rfl, ?_⟩
    show LogMaxFileSize < if (goMax size LogMaxFileSize).tmod LogMinFileSize > 0 then _ else _
    rw [hgoMax2 size hgt, if_pos hcond, htd]
    have e1 : LogMinFileSize = (1024000:Int) := by decide
    have e2 : LogMaxFileSize = (512000000:Int) := by decide
    rw [e1] at hne ⊢
    rw [e2] at hgt ⊢
    omega

/-- C1 witness: a request of 1 byte yields the minimum unit, and the
above-ceiling non-multiple request 614400001 is rounded up past the
ceiling. -/
theorem sizeLimitedFile_effective_limit_witness :
    sizeLimitCalc 1 = LogMinFileSize ∧
    (sizeLimitCalc 614400001 =
        614400001 / LogMinFileSize * LogMinFileSize + LogMinFileSize ∧
      LogMaxFileSize < sizeLimitCalc 614400001) :=
  ⟨(sizeLimitedFile_effective_limit 1).1 (Or.inl (by decide)),
   (sizeLimitedFile_effective_limit 614400001).2 ⟨by decide, by decide⟩⟩

/-- C1 counterexample: a request of `600*Mbyte + 1` (above the ceiling,
not a multiple) yields `601*Mbyte = 615424000`, which exceeds the claimed
ceiling and is not the claimed minimum; and the sub-ceiling non-multiple
request `2*Mbyte + 1` degrades to the minimum instead of rounding up to
`3*Mbyte`. -/
theorem sizeLimitedFile_claim_cex :
    sizeLimitCalc (600 * Mbyte + 1) = 615424000 ∧
    ¬ (sizeLimitCalc (600 * Mbyte + 1) ≤ LogMaxFileSize) ∧
    sizeLimitCalc (600 * Mbyte + 1) ≠ LogMinFileSize ∧
    sizeLimitCalc (2 * Mbyte + 1) = LogMinFileSize ∧
    sizeLimitCalc (2 * Mbyte + 1) ≠ 3 * Mbyte := by
  decide

/-- C2 (amended): a failed or empty listing yields volume 1; the selection
loop keeps a file whose modification time is maximal among the matches
(the **newest**, not the claimed oldest); when the token `t` of that file
is found and is within `int16` range the result is `(t mod 9999) + 1`; and
every produced volume number lies in `[1, 9999]` (so a token of 9999 wraps
to 1 and 0 is never produced). -/
theorem calcNextVolumeNo_spec :
    (calcNextVolumeNo none = some 1 ∧ calcNextVolumeNo (some []) = some 1) ∧
    (∀ m0 ms, pickLatest m0 (m0 :: ms) ∈ m0 :: ms ∧
       ∀ f ∈ m0 :: ms, f.mtime ≤ (pickLatest m0 (m0 :: ms)).mtime) ∧
    (∀ m0 ms ds, findVolToken (pickLatest m0 (m0 :: ms)).name = some ds →
       digitsVal ds ≤ 32767 →
       calcNextVolumeNo (some (m0 :: ms)) = some ((digitsVal ds : Int) % 9999 + 1)) ∧
    (∀ L r, calcNextVolumeNo L = some r → 1 ≤ r ∧ r ≤ 9999) := by
  refine ⟨⟨rfl, rfl⟩, ?_, ?_, ?_⟩
  · intro m0 ms
    constructor
    · rcases pickLatest_mem m0 (m0 :: ms) with h | h
      · rw [h]; exact List.mem_cons_self m0 ms
      · exact h
    · exact (pickLatest_max m0 (m0 :: ms)).2
  · intro m0 ms ds h hle
    simp only [calcNextVolumeNo, h]
    have hp : parseInt16 ds = (digitsVal ds : Int) := by
      simp [parseInt16, Nat.min_eq_left hle]
    rw [hp, Int.tmod_eq_emod (Int.ofNat_nonneg _) (by decide)]
    rw [if_neg (by
      have := Int.emod_nonneg ((digitsVal ds : Int)) (show (9999:Int) ≠ 0 by decide)
      omega)]
  · intro L r hr
    rcases L with _ | l
    · simp [calcNextVolumeNo] at hr; omega
    · rcases l with _ | ⟨m0, ms⟩
      · simp [calcNextVolumeNo] at hr; omega
      · rcases hfind : findVolToken (pickLatest m0 (m0 :: ms)).name with _ | ds
        · simp [calcNextVolumeNo, hfind] at hr
        · simp only [calcNextVolumeNo, hfind, Option.some_inj] at hr
          have h0 : (0:Int) ≤ parseInt16 ds := Int.ofNat_nonneg _
          have ht : (parseInt16 ds).tmod 9999 = parseInt16 ds % 9999 :=
            Int.tmod_eq_emod h0 (by decide)
          have hnn := Int.emod_nonneg (parseInt16 ds) (show (9999:Int) ≠ 0 by decide)
          have hlt := Int.emod_lt_of_pos (parseInt16 ds) (show (0:Int) < 9999 by decide)
          rw [ht] at hr
          split at hr <;> omega

/-- C2 witness: a single matching file `p.0005.log` produces volume
`5 % 9999 + 1 = 6`. -/
theorem calcNextVolumeNo_spec_witness :
    calcNextVolumeNo (some [⟨"p.0005.log".data, 10⟩]) =
      some ((digitsVal "0005".data : Int) % 9999 + 1) :=
  calcNextVolumeNo_spec.2.2.1 ⟨"p.0005.log".data, 10⟩ [] "0005".data (by decide) (by decide)

/-- C2 counterexample: with matches `p.0005.log` (modified at 10, the
oldest) and `p.0007.log` (modified at 20, the newest), the code returns
volume 8 (from the newest token 7), while the spec's words — select the
oldest match, token 5 — give 6. -/
theorem calcNextVolumeNo_oldest_cex :
    calcNextVolumeNo (some [⟨"p.0005.log".data, 10⟩, ⟨"p.0007.log".data, 20⟩]) = some 8 ∧
    specNextVolumeNo (some [⟨"p.0005.log".data, 10⟩, ⟨"p.0007.log".data, 20⟩]) = some 6 ∧
    calcNextVolumeNo (some [⟨"p.0005.log".data, 10⟩, ⟨"p.0007.log".data, 20⟩]) ≠
      specNextVolumeNo (some [⟨"p.0005.log".data, 10⟩, ⟨"p.0007.log".data, 20⟩]) := by
  decide

/-- C3: a `Write` of payload `p` appends to the file exactly the record
`bytesReplaceNl p ++ [10]` — `p` with each newline byte replaced by the
two bytes `"; "`, plus exactly one trailing newline — and nothing else:
the appended suffix is exactly that record, its body contains no newline
byte, and the whole record contains exactly one. -/
theorem write_record_framing (file p : List Nat) :
    (logWrite file p).1 = file ++ (bytesReplaceNl p ++ [10]) ∧
    (logWrite file p).1.drop file.length = bytesReplaceNl p ++ [10] ∧
    (bytesReplaceNl p).count 10 = 0 ∧
    (normalizeEntry p).count 10 = 1 := by
  refine ⟨rfl, ?_, bytesReplaceNl_count_nl p, ?_⟩
  · show (file ++ (bytesReplaceNl p ++ [10])).drop file.length = bytesReplaceNl p ++ [10]
    exact List.drop_left _ _
  · show (bytesReplaceNl p ++ [10]).count 10 = 1
    simp [List.count_append, bytesReplaceNl_count_nl p]

/-- C10: a successful `Write` returns the length of the normalized record
actually appended — `len(p)` plus one byte per embedded newline plus the
trailing newline — so whenever `p` contains a newline the returned count
strictly exceeds `len(p)`. -/
theorem write_count_exceeds_input (file p : List Nat) :
    (logWrite file p).2 = p.length + p.count 10 + 1 ∧
    (10 ∈ p → p.length < (logWrite file p).2) := by
  have hlen : (logWrite file p).2 = p.length + p.count 10 + 1 := by
    show (bytesReplaceNl p ++ [10]).length = _
    simp [bytesReplaceNl_length p]
  refine ⟨hlen, fun hmem => ?_⟩
  have hc : 0 < p.count 10 := List.count_pos_iff.mpr hmem
  omega

/-- C10 witness: writing the three bytes `a\nb` returns count 5 > 3. -/
theorem write_count_exceeds_input_witness :
    10 ∈ [97, 10, 98] ∧ [97, 10, 98].length < (logWrite [] [97, 10, 98]).2 :=
  ⟨by decide, (write_count_exceeds_input [] [97, 10, 98]).2 (by decide)⟩

/-- C4: on a rotation probe whose `os.Stat` fails, `sizeRotateCheck`
panics (via `log.Panicf`; the `return true` after it is dead code), and
the deferred `recover()` in `LogRotateCheck` swallows the panic and makes
`LogRotateCheck` return `false` — rotation is *not* treated as due,
contrary to the claim; the process survives, as the claim's second half
says. -/
theorem sizeRotateCheck_stat_failure :
    rotateCheckOf ⟨PolicyType.PolicyFileSize, 1024000, none⟩ 0 none = Except.error () ∧
    LogRotateCheck ⟨PolicyType.PolicyFileSize, 1024000, none⟩ 0 none = false :=
  ⟨rfl, rfl⟩

/-- C5 (amended): the first filename-generation call on any freshly
constructed static-name `LogFile` (stored `volNo = 0`) assigns volume 1
unconditionally — also when matching files already exist, hence also on
every reconstruction with the same prefix; only a later call on the same
instance (stored `volNo ≠ 0`, i.e. a `PolicyFileSize` rotation) derives
the volume by scanning the existing matching files. -/
theorem getStaticVolNo_reconstruction (globResult : Option (List FileEntry)) :
    getStaticVolNo 0 globResult = some 1 ∧
    ∀ v : Int, v ≠ 0 → getStaticVolNo v globResult = calcNextVolumeNo globResult := by
  constructor
  · rfl
  · intro v hv; simp [getStaticVolNo, hv]

/-- C5 witness: with one existing match, a fresh instance still gets
volume 1, and an instance with stored volume 3 scans the listing. -/
theorem getStaticVolNo_reconstruction_witness :
    getStaticVolNo 0 none = some 1 ∧ getStaticVolNo 3 none = calcNextVolumeNo none :=
  ⟨(getStaticVolNo_reconstruction none).1, (getStaticVolNo_reconstruction none).2 3 (by decide)⟩

/-- C5 counterexample: with the matching file `p.0007.log` on disk, a
reconstruction (fresh `volNo = 0`) opens volume 1, not the scanned value
8 the claim requires. -/
theorem getStaticVolNo_fresh_cex :
    getStaticVolNo 0 (some [⟨"p.0007.log".data, 5⟩]) = some 1 ∧
    calcNextVolumeNo (some [⟨"p.0007.log".data, 5⟩]) = some 8 ∧
    getStaticVolNo 0 (some [⟨"p.0007.log".data, 5⟩]) ≠
      calcNextVolumeNo (some [⟨"p.0007.log".data, 5⟩]) := by
  decide

/-- C6 (amended): for a Daily- or TimeLimit-policy file holding a live
timer, `LogRotateCheck` is true exactly when "now" rounded to the minute
is **strictly past** the timer's `TriggerTime` (the source uses
`time.Time.After`, so equality does not trigger); for a None-policy file
it is always false. -/
theorem logRotateCheck_timed (lf : LogFileModel) (t : TimerState) (now : Nat)
    (stat : Option Int) :
    ((lf.policy = PolicyType.PolicyDaily ∨ lf.policy = PolicyType.PolicyTimeLimit) →
      lf.ltimer = some t →
      (LogRotateCheck lf now stat = true ↔ TriggerTime t < roundMinute now)) ∧
    (lf.policy = PolicyType.PolicyNone → LogRotateCheck lf now stat = false) := by
  obtain ⟨pol, lim, lt⟩ := lf
  constructor
  · rintro hpol hlt
    simp only at hpol hlt
    rcases hpol with h | h <;> subst h <;> subst hlt <;>
      simp [LogRotateCheck, rotateCheckOf, timedRotateCheck, TriggerTime]
  · intro h
    simp only at h
    subst h
    rfl

/-- C6 witness: a Daily file with trigger 120 checks true at `now = 151`
(rounded to 180, strictly past the trigger). -/
theorem logRotateCheck_timed_witness :
    LogRotateCheck ⟨PolicyType.PolicyDaily, 0, some ⟨0, 120, 86400⟩⟩ 151 none = true ↔
      TriggerTime ⟨0, 120, 86400⟩ < roundMinute 151 :=
  (logRotateCheck_timed ⟨PolicyType.PolicyDaily, 0, some ⟨0, 120, 86400⟩⟩
    ⟨0, 120, 86400⟩ 151 none).1 (Or.inl rfl) rfl

/-- C6 counterexample: at the trigger instant itself (now = trigger = 120,
rounding to 120) the claimed "at or past" reading demands true, but the
check returns false. -/
theorem logRotateCheck_at_trigger_cex :
    ¬ ((LogRotateCheck ⟨PolicyType.PolicyDaily, 0, some ⟨0, 120, 86400⟩⟩ 120 none = true) ↔
        TriggerTime ⟨0, 120, 86400⟩ ≤ roundMinute 120) := by
  decide

/-- C7: after a firing (callback, whose rotation path calls `Reset`, then
`lt.base = lt.next`), the anchor does advance to the previous
`nextTrigger`, but no new `nextTrigger` is computed anywhere — for a daily
timer constructed at instant 0, the post-firing `TriggerTime` is still
86400, equal to the new anchor, while the claimed invariant
`TriggerTime = anchor + cycle` would demand 172800. -/
theorem timer_fire_keeps_next :
    (doTimerFunc (Reset (NewDailyTimer 0))).base = TriggerTime (NewDailyTimer 0) ∧
    TriggerTime (doTimerFunc (Reset (NewDailyTimer 0))) = 86400 ∧
    (doTimerFunc (Reset (NewDailyTimer 0))).base + (doTimerFunc (Reset (NewDailyTimer 0))).d
      = 172800 ∧
    TriggerTime (doTimerFunc (Reset (NewDailyTimer 0))) ≠
      (doTimerFunc (Reset (NewDailyTimer 0))).base + (doTimerFunc (Reset (NewDailyTimer 0))).d := by
  decide

/-- C8: for a FileSize-policy file whose current file stats to size `sz`,
the rotation check (through `LogRotateCheck`) is true exactly when
`sz + logHighWaterMark > fileSizeLimit`, and the margin constant is
`2 * 1024 = 2048` bytes. -/
theorem sizeRotateCheck_highwater (limit sz : Int) (lt : Option TimerState) (now : Nat) :
    (LogRotateCheck ⟨PolicyType.PolicyFileSize, limit, lt⟩ now (some sz) = true ↔
      limit < sz + logHighWaterMark) ∧
    logHighWaterMark = 2 * 1024 := by
  constructor
  · simp [LogRotateCheck, rotateCheckOf, sizeRotateCheck]
  · decide

/-- C9 (amended): immediately after construction — for every construction
instant and, for `NewTimer` (TimeLimit), every caller-supplied cycle —
`TriggerTime` equals the anchor plus exactly one cycle, unconditionally
for both timer kinds; it is strictly after "now" always for the daily
timer, and for `NewTimer` whenever the cycle exceeds the seconds already
elapsed in the current minute — in particular for every cycle of at least
one minute.  (For smaller cycles the strictly-after-now part fails; see
the counterexample.) -/
theorem triggerTime_after_construction (now dur : Nat) :
    (now < TriggerTime (NewDailyTimer now) ∧
      TriggerTime (NewDailyTimer now) = (NewDailyTimer now).base + (NewDailyTimer now).d) ∧
    TriggerTime (NewTimer now dur) = (NewTimer now dur).base + (NewTimer now dur).d ∧
    (now % 60 < dur → now < TriggerTime (NewTimer now dur)) := by
  have hd1 : TriggerTime (NewDailyTimer now) = dayTrunc now + 86400 := rfl
  have hd2 : (NewDailyTimer now).base = dayTrunc now := rfl
  have hd3 : (NewDailyTimer now).d = 86400 := rfl
  have ht1 : TriggerTime (NewTimer now dur) = minuteTrunc now + dur := rfl
  have ht2 : (NewTimer now dur).base = minuteTrunc now := rfl
  have ht3 : (NewTimer now dur).d = dur := rfl
  refine ⟨⟨?_, ?_⟩, ?_, fun h => ?_⟩
  · rw [hd1]
    unfold dayTrunc
    omega
  · rw [hd1, hd2, hd3]
  · rw [ht1, ht2, ht3]
  · rw [ht1]
    unfold minuteTrunc
    omega

/-- C9 witness: a one-minute cycle started 30 seconds into a minute
(now = 90) triggers at 120, strictly after now. -/
theorem triggerTime_after_construction_witness :
    90 % 60 < 60 ∧ 90 < TriggerTime (NewTimer 90 60) :=
  ⟨by decide, (triggerTime_after_construction 90 60).2.2 (by decide)⟩

/-- C9 counterexample: a positive 10-second cycle created 30 seconds into
a minute (now = 90) has `TriggerTime = 70`, in the past — the claimed
"strictly after now for every positive cycle" is false. -/
theorem triggerTime_small_cycle_cex :
    ¬ (∀ now dur : Nat, 0 < dur → now < TriggerTime (NewTimer now dur)) := fun h =>
  absurd (h 90 10 (by decide)) (by decide)

end Logger
